import Mathlib

/-!
Shallow embedding of two BLAS kernels from the blasjs repository: the
complex Hermitian band matrix-vector product chbmv
(src/lib/l2/complex/chbmv.ts) and the real triangular matrix-matrix
product strmm (src/lib/l3/single/strmm.ts).

The TypeScript code computes with IEEE doubles, but it only ever adds,
subtracts and multiplies scalars and compares them for equality with 0
and 1, so it is embedded over an arbitrary commutative ring R with
decidable equality; every property settled here concerns control flow,
exact zero and one tests, index arithmetic and frame conditions, which
are uniform in the ring. Concrete runs instantiate R with the integers
(the concrete inputs of the spec are small integers, which IEEE
doubles represent exactly). Backing buffers are modelled as total
functions from Int, so every store position is observable and frame
conditions can be stated. A thrown JavaScript error is modelled as an
Except.error result: the caller receives no updated buffer, matching
throw-before-write.
-/

namespace Blas

/-- Complex scalar: the re and im pair of the TS code. -/
structure Complex (R : Type) where
  re : R
  im : R
deriving DecidableEq

/-- FortranArr: strided vector with real and imaginary backing stores
and a base offset, as supplied by f_func. The imaginary store is
modelled as always present: the kernels under study are only reached
with it present, since a missing one throws before any other work. -/
structure FortranArr (R : Type) where
  r : Int → R
  i : Int → R
  base : Int

/-- Matrix: packed column-major storage with real and imaginary
backing stores, plus the column offset accessor colOfEx supplied by
the external storage collaborator. -/
structure Matrix (R : Type) where
  r : Int → R
  i : Int → R
  colOfEx : Int → Int

/-- Structured form of the errWrongArg error: routine name and the
1-based position of the offending argument. -/
inductive BlasError where
  | wrongArg (routine : String) (pos : Int)
deriving DecidableEq

/-- Modelled from the spec: the column offset accessor of the external
storage collaborator (spec section 6) for a plain column-major buffer
with leading dimension lda and 1-based indices. Entry (i, j) is read
at colMajor lda j + i, so column j occupies linear offsets starting at
(j-1)*lda, exactly the addressing law the kernels assume. -/
def colMajor (lda : Int) : Int → Int := fun j => (j - 1) * lda - 1

/-- Translation of lowerChar from f_func: sets the 0x20 bit of the
character code, lowercasing an ASCII letter. -/
def lowerChar (c : Char) : Char := Char.ofNat (c.toNat ||| 32)

variable {R : Type} [CommRing R] [DecidableEq R]

/-- Pointwise store update of a backing buffer. -/
def upd (f : Int → R) (p : Int) (v : R) : Int → R :=
  fun q => if q = p then v else f q

/-- Ascending loop for idx = lo .. hi (empty when lo > hi), threading a
state; mirrors the for loops of the TS source. -/
def foldRange {α : Type} (lo hi : Int) (f : Int → α → α) (init : α) : α :=
  (List.range (hi + 1 - lo).toNat).foldl (fun (s : α) (t : Nat) => f (lo + (t : Int)) s) init

/-- Descending loop for idx = hi .. lo (empty when lo > hi), threading
a state. -/
def foldRangeDown {α : Type} (lo hi : Int) (f : Int → α → α) (init : α) : α :=
  (List.range (hi + 1 - lo).toNat).foldl (fun (s : α) (t : Nat) => f (hi - (t : Int)) s) init

/-- Complex equality-to-zero test (alphaIsZero and betaIsZero in the
chbmv source). -/
def isZero (z : Complex R) : Bool := decide (z.re = 0 ∧ z.im = 0)

/-- Complex equality-to-one test (betaIsOne in the chbmv source). -/
def isOne (z : Complex R) : Bool := decide (z.re = 1 ∧ z.im = 0)

/-- Validation cascade of chbmv (lines 52..71 of chbmv.ts): value of
the local info after the if chain, 0 meaning all checks passed. -/
def chbmvInfo (uplo : Char) (n k lda incx incy : Int) : Int :=
  let ul := lowerChar uplo
  if ¬(ul = 'u') ∧ ¬(ul = 'l') then 1
  else if n < 0 then 2
  else if k < 0 then 3
  else if lda < k + 1 then 6
  else if incx = 0 then 8
  else if incy = 0 then 11
  else 0

/-- Beta scaling pass of chbmv (lines 89..102 of chbmv.ts), exactly as
written: the pass runs only under the betaIsOne guard; inside it, the
bulk fill branch additionally requires betaIsZero and incy = 1, and
the strided loop writes each position with the betaIsZero conditional,
the imaginary write reading the just-updated real cell. -/
def betaScale (beta : Complex R) (n ky incy : Int) (y : FortranArr R) : FortranArr R :=
  if isOne beta then
    if isZero beta ∧ incy = 1 then
      { y with r := fun _ => 0, i := fun _ => 0 }
    else
      let s := foldRange 1 n
        (fun _ (st : (Int → R) × (Int → R) × Int) =>
          let (yr, yi, iy) := st
          let yr2 := upd yr iy (if isZero beta then 0 else beta.re * yr iy - beta.im * yi iy)
          let yi2 := upd yi iy (if isZero beta then 0 else beta.re * yi iy + beta.im * yr2 iy)
          (yr2, yi2, iy + incy))
        (y.r, y.i, ky)
      { y with r := s.1, i := s.2.1 }
  else y

/-- The same pass with the bulk fill branch removed: only the strided
loop remains under the betaIsOne guard. -/
def betaScaleNoFill (beta : Complex R) (n ky incy : Int) (y : FortranArr R) : FortranArr R :=
  if isOne beta then
    let s := foldRange 1 n
      (fun _ (st : (Int → R) × (Int → R) × Int) =>
        let (yr, yi, iy) := st
        let yr2 := upd yr iy (if isZero beta then 0 else beta.re * yr iy - beta.im * yi iy)
        let yi2 := upd yi iy (if isZero beta then 0 else beta.re * yi iy + beta.im * yr2 iy)
        (yr2, yi2, iy + incy))
      (y.r, y.i, ky)
    { y with r := s.1, i := s.2.1 }
  else y

/-- Translation of chbmv (chbmv.ts lines 24..177): validation, early
exits, the beta pass, then the upper or lower band accumulation with
the exact index bookkeeping of the source (kx, ky, jx, jy, ix, iy). -/
def chbmv (uplo : Char) (n k : Int) (alpha : Complex R) (a : Matrix R) (lda : Int)
    (x : FortranArr R) (incx : Int) (beta : Complex R) (y : FortranArr R) (incy : Int) :
    Except BlasError (FortranArr R) :=
  let info := chbmvInfo uplo n k lda incx incy
  if info ≠ 0 then .error (.wrongArg "chbmv" info)
  else if n = 0 ∨ (isZero alpha ∧ isOne beta) then .ok y
  else
    let kx : Int := if incx > 0 then 1 else 1 - (n - 1) * incx
    let ky : Int := if incy > 0 then 1 else 1 - (n - 1) * incy
    let y1 := betaScale beta n ky incy y
    if isZero alpha then .ok y1
    else
      if lowerChar uplo = 'u' then
        let fin := foldRange 1 n
          (fun j (st : (Int → R) × (Int → R) × Int × Int × Int × Int) =>
            let (yr, yi, kx2, ky2, jx2, jy2) := st
            let t1r := alpha.re * x.r jx2 - alpha.im * x.i jx2
            let t1i := alpha.re * x.i jx2 + alpha.im * x.r jx2
            let L := k + 1 - j
            let coords := a.colOfEx j
            let inner := foldRange (max 1 (j - k)) (j - 1)
              (fun i (s : (Int → R) × (Int → R) × R × R × Int × Int) =>
                let (yr2, yi2, t2r, t2i, ix, iy) := s
                let yr3 := upd yr2 iy
                  (yr2 iy + (t1r * a.r (coords + L + i) - t1i * a.i (coords + L + i)))
                let yi3 := upd yi2 iy
                  (yi2 iy + (t1r * a.i (coords + L + i) + t1i * a.r (coords + L + i)))
                (yr3, yi3,
                 t2r + (a.r (coords + L + i) * x.r ix + a.i (coords + L + i) * x.i ix),
                 t2i + (a.r (coords + L + i) * x.i ix - a.i (coords + L + i) * x.r ix),
                 ix + incx, iy + incy))
              (yr, yi, (0 : R), (0 : R), kx2 - x.base, ky2 - y1.base)
            let (yr4, yi4, t2r, t2i, _, iy) := inner
            let yr5 := upd yr4 iy
              (yr4 iy + (t1r * a.r (coords + (k + 1)) + (alpha.re * t2r - alpha.im * t2i)))
            let yi5 := upd yi4 iy
              (yi4 iy + (t1i * a.r (coords + (k + 1)) + (alpha.re * t2i + alpha.im * t2r)))
            (yr5, yi5,
             if j > k then kx2 + incx else kx2,
             if j > k then ky2 + incy else ky2,
             jx2 + incx, jy2 + incy))
          (y1.r, y1.i, kx, ky, kx - x.base, ky - y1.base)
        .ok { y1 with r := fin.1, i := fin.2.1 }
      else
        let fin := foldRange 1 n
          (fun j (st : (Int → R) × (Int → R) × Int × Int) =>
            let (yr, yi, jx2, jy2) := st
            let t1r := alpha.re * x.r jx2 - alpha.im * x.i jx2
            let t1i := alpha.re * x.i jx2 + alpha.im * x.r jx2
            let coords := a.colOfEx j
            let yr1 := upd yr jy2 (yr jy2 + t1r * a.r (coords + 1))
            let yi1 := upd yi jy2 (yi jy2 + t1i * a.r (coords + 1))
            let L := 1 - j
            let inner := foldRange (j + 1) (min n (j + k))
              (fun i (s : (Int → R) × (Int → R) × R × R × Int × Int) =>
                let (yr2, yi2, t2r, t2i, ix, iy) := s
                let ix2 := ix + incx
                let iy2 := iy + incy
                let yr3 := upd yr2 iy2
                  (yr2 iy2 + (t1r * a.r (coords + L + i) - t1i * a.i (coords + L + i)))
                let yi3 := upd yi2 iy2
                  (yi2 iy2 + (t1r * a.i (coords + L + i) + t1i * a.r (coords + L + i)))
                (yr3, yi3,
                 t2r + (a.r (coords + L + i) * x.r ix2 + a.i (coords + L + i) * x.i ix2),
                 t2i + (a.r (coords + L + i) * x.i ix2 - a.i (coords + L + i) * x.r ix2),
                 ix2, iy2))
              (yr1, yi1, (0 : R), (0 : R), jx2, jy2)
            let (yr4, yi4, t2r, t2i, _, _) := inner
            let yr5 := upd yr4 jy2 (yr4 jy2 + (alpha.re * t2r - alpha.im * t2i))
            let yi5 := upd yi4 jy2 (yi4 jy2 + (alpha.re * t2i + alpha.im * t2r))
            (yr5, yi5, jx2 + incx, jy2 + incy))
          (y1.r, y1.i, kx - x.base, ky - y1.base)
        .ok { y1 with r := fin.1, i := fin.2.1 }

/-- Validation cascade of strmm (lines 49..73 of strmm.ts): value of
the local info after the if chain, 0 meaning all checks passed. The
membership tests of the source (string includes) become the evident
disjunctions of character equalities. -/
def strmmInfo (side uplo transA diag : Char) (m n lda ldb : Int) : Int :=
  let si := lowerChar side
  let ul := lowerChar uplo
  let tr := lowerChar transA
  let di := lowerChar diag
  let nrowA := if si = 'l' then m else n
  if ¬(si = 'l' ∨ si = 'r') then 1
  else if ¬(ul = 'u' ∨ ul = 'l') then 2
  else if ¬(tr = 'n' ∨ tr = 't' ∨ tr = 'c') then 3
  else if ¬(di = 'u' ∨ di = 'n') then 4
  else if m < 0 then 5
  else if n < 0 then 6
  else if lda < max 1 nrowA then 9
  else if ldb < max 1 m then 11
  else 0

/-- Modelled from the spec: setCol comes from f_func, which is not in
src. Per spec sections 4.2 and 6 it writes the value to rows rb..re of
column j of the buffer, addressed through the column offset accessor,
so b.setCol(j, 1, m, 0) zeroes rows 1..m of column j. -/
def setCol (col : Int → Int) (j rb re : Int) (v : R) (f : Int → R) : Int → R :=
  foldRange rb re (fun i g => upd g (col j + i) v) f

/-- Left, no transpose, upper branch of strmm (lines 98..111). -/
def strmmLNU (nounit : Bool) (m n : Int) (alpha : R) (aCol : Int → Int)
    (ar : Int → R) (bCol : Int → Int) (br0 : Int → R) : Int → R :=
  foldRange 1 n (fun j br =>
    let coorBJ := bCol j
    foldRange 1 m (fun k br =>
      let coorAK := aCol k
      if br (coorBJ + k) ≠ 0 then
        let temp := alpha * br (coorBJ + k)
        let br1 := foldRange 1 (k - 1) (fun i br2 =>
          upd br2 (coorBJ + i) (br2 (coorBJ + i) + temp * ar (coorAK + i))) br
        upd br1 (coorBJ + k) (if nounit then temp * ar (coorAK + k) else temp)
      else br) br) br0

/-- Left, no transpose, lower branch of strmm (lines 114..129). -/
def strmmLNL (nounit : Bool) (m n : Int) (alpha : R) (aCol : Int → Int)
    (ar : Int → R) (bCol : Int → Int) (br0 : Int → R) : Int → R :=
  foldRange 1 n (fun j br =>
    let coorBJ := bCol j
    foldRangeDown 1 m (fun k br =>
      let coorAK := aCol k
      if br (coorBJ + k) ≠ 0 then
        let temp := alpha * br (coorBJ + k)
        let br1 := upd br (coorBJ + k) temp
        let br2 := if nounit then upd br1 (coorBJ + k) (br1 (coorBJ + k) * ar (coorAK + k)) else br1
        foldRange (k + 1) m (fun i br3 =>
          upd br3 (coorBJ + i) (br3 (coorBJ + i) + temp * ar (coorAK + i))) br2
      else br) br) br0

/-- Left, transpose, upper branch of strmm (lines 135..146). -/
def strmmLTU (nounit : Bool) (m n : Int) (alpha : R) (aCol : Int → Int)
    (ar : Int → R) (bCol : Int → Int) (br0 : Int → R) : Int → R :=
  foldRange 1 n (fun j br =>
    let coorBJ := bCol j
    foldRangeDown 1 m (fun i br =>
      let coorAI := aCol i
      let t0 := br (coorBJ + i)
      let t1 := if nounit then t0 * ar (coorAI + i) else t0
      let t2 := foldRange 1 (i - 1) (fun k t => t + ar (coorAI + k) * br (coorBJ + k)) t1
      upd br (coorBJ + i) (alpha * t2)) br) br0

/-- Left, transpose, lower branch of strmm (lines 149..160). -/
def strmmLTL (nounit : Bool) (m n : Int) (alpha : R) (aCol : Int → Int)
    (ar : Int → R) (bCol : Int → Int) (br0 : Int → R) : Int → R :=
  foldRange 1 n (fun j br =>
    let coorBJ := bCol j
    foldRange 1 m (fun i br =>
      let coorAI := aCol i
      let t0 := br (coorBJ + i)
      let t1 := if nounit then t0 * ar (coorAI + i) else t0
      let t2 := foldRange (i + 1) m (fun k t => t + ar (coorAI + k) * br (coorBJ + k)) t1
      upd br (coorBJ + i) (alpha * t2)) br) br0

/-- Right, no transpose, upper branch of strmm (lines 168..187). -/
def strmmRNU (nounit : Bool) (m n : Int) (alpha : R) (aCol : Int → Int)
    (ar : Int → R) (bCol : Int → Int) (br0 : Int → R) : Int → R :=
  foldRangeDown 1 n (fun j br =>
    let coorAJ := aCol j
    let coorBJ := bCol j
    let temp := if nounit then alpha * ar (coorAJ + j) else alpha
    let br1 := foldRange 1 m (fun i br2 =>
      upd br2 (coorBJ + i) (br2 (coorBJ + i) * temp)) br
    foldRange 1 (j - 1) (fun k br2 =>
      let coorBK := bCol k
      if ar (coorAJ + k) ≠ 0 then
        let t := alpha * ar (coorAJ + k)
        foldRange 1 m (fun i br3 =>
          upd br3 (coorBJ + i) (br3 (coorBJ + i) + t * br3 (coorBK + i))) br2
      else br2) br1) br0

/-- Right, no transpose, lower branch of strmm (lines 191..210). -/
def strmmRNL (nounit : Bool) (m n : Int) (alpha : R) (aCol : Int → Int)
    (ar : Int → R) (bCol : Int → Int) (br0 : Int → R) : Int → R :=
  foldRange 1 n (fun j br =>
    let coorAJ := aCol j
    let coorBJ := bCol j
    let temp := if nounit then alpha * ar (coorAJ + j) else alpha
    let br1 := foldRange 1 m (fun i br2 =>
      upd br2 (coorBJ + i) (br2 (coorBJ + i) * temp)) br
    foldRange (j + 1) n (fun k br2 =>
      let coorBK := bCol k
      if ar (coorAJ + k) ≠ 0 then
        let t := alpha * ar (coorAJ + k)
        foldRange 1 m (fun i br3 =>
          upd br3 (coorBJ + i) (br3 (coorBJ + i) + t * br3 (coorBK + i))) br2
      else br2) br1) br0

/-- Right, transpose, upper branch of strmm (lines 216..235); note the
final column scale is skipped whenever the computed factor equals 1. -/
def strmmRTU (nounit : Bool) (m n : Int) (alpha : R) (aCol : Int → Int)
    (ar : Int → R) (bCol : Int → Int) (br0 : Int → R) : Int → R :=
  foldRange 1 n (fun k br =>
    let coorAK := aCol k
    let coorBK := bCol k
    let br1 := foldRange 1 (k - 1) (fun j br2 =>
      let coorBJ := bCol j
      if ar (coorAK + j) ≠ 0 then
        let t := alpha * ar (coorAK + j)
        foldRange 1 m (fun i br3 =>
          upd br3 (coorBJ + i) (br3 (coorBJ + i) + t * br3 (coorBK + i))) br2
      else br2) br
    let temp := if nounit then alpha * ar (coorAK + k) else alpha
    if temp ≠ 1 then
      foldRange 1 m (fun i br2 => upd br2 (coorBK + i) (temp * br2 (coorBK + i))) br1
    else br1) br0

/-- Right, transpose, lower branch of strmm (lines 238..257). -/
def strmmRTL (nounit : Bool) (m n : Int) (alpha : R) (aCol : Int → Int)
    (ar : Int → R) (bCol : Int → Int) (br0 : Int → R) : Int → R :=
  foldRangeDown 1 n (fun k br =>
    let coorAK := aCol k
    let coorBK := bCol k
    let br1 := foldRange (k + 1) n (fun j br2 =>
      let coorBJ := bCol j
      if ar (coorAK + j) ≠ 0 then
        let t := alpha * ar (coorAK + j)
        foldRange 1 m (fun i br3 =>
          upd br3 (coorBJ + i) (br3 (coorBJ + i) + t * br3 (coorBK + i))) br2
      else br2) br
    let temp := if nounit then alpha * ar (coorAK + k) else alpha
    if temp ≠ 1 then
      foldRange 1 m (fun i br2 => upd br2 (coorBK + i) (br2 (coorBK + i) * temp)) br1
    else br1) br0

/-- Translation of strmm (strmm.ts lines 24..261): validation, quick
returns, the alpha = 0 zeroing pass, then dispatch into one of the
eight loop nests on (side, transA equal to n, uplo). -/
def strmm (side uplo transA diag : Char) (m n : Int) (alpha : R)
    (a : Matrix R) (lda : Int) (b : Matrix R) (ldb : Int) : Except BlasError (Matrix R) :=
  let si := lowerChar side
  let ul := lowerChar uplo
  let tr := lowerChar transA
  let di := lowerChar diag
  let nounit := decide (di = 'n')
  let info := strmmInfo side uplo transA diag m n lda ldb
  if info ≠ 0 then .error (.wrongArg "strmm" info)
  else if m = 0 ∨ n = 0 then .ok b
  else if alpha = 0 then
    .ok { b with r := foldRange 1 n (fun j br => setCol b.colOfEx j 1 m 0 br) b.r }
  else .ok { b with r :=
    if si = 'l' then
      if tr = 'n' then
        if ul = 'u' then strmmLNU nounit m n alpha a.colOfEx a.r b.colOfEx b.r
        else strmmLNL nounit m n alpha a.colOfEx a.r b.colOfEx b.r
      else
        if ul = 'u' then strmmLTU nounit m n alpha a.colOfEx a.r b.colOfEx b.r
        else strmmLTL nounit m n alpha a.colOfEx a.r b.colOfEx b.r
    else
      if tr = 'n' then
        if ul = 'u' then strmmRNU nounit m n alpha a.colOfEx a.r b.colOfEx b.r
        else strmmRNL nounit m n alpha a.colOfEx a.r b.colOfEx b.r
      else
        if ul = 'u' then strmmRTU nounit m n alpha a.colOfEx a.r b.colOfEx b.r
        else strmmRTL nounit m n alpha a.colOfEx a.r b.colOfEx b.r }

/-- Example packed buffer used to instantiate theorems that quantify
over matrix arguments. -/
def exMat : Matrix ℤ := ⟨fun _ => 0, fun _ => 0, colMajor 1⟩

/-- Example strided vector used to instantiate theorems that quantify
over vector arguments. -/
def exArr : FortranArr ℤ := ⟨fun _ => 0, fun _ => 0, 0⟩

theorem foldRange_congr {α : Type} {lo hi : Int} {f g : Int → α → α} {init : α}
    (h : ∀ idx, lo ≤ idx → idx ≤ hi → ∀ s, f idx s = g idx s) :
    foldRange lo hi f init = foldRange lo hi g init := by
  unfold foldRange
  have key : ∀ (l : List Nat), (∀ t ∈ l, t < (hi + 1 - lo).toNat) → ∀ s,
      l.foldl (fun (s : α) (t : Nat) => f (lo + (t : Int)) s) s
        = l.foldl (fun (s : α) (t : Nat) => g (lo + (t : Int)) s) s := by
    intro l
    induction l with
    | nil => intro _ s; rfl
    | cons hd tl ih =>
      intro hb s
      have hhd := hb hd (List.mem_cons_self hd tl)
      simp only [List.foldl_cons]
      rw [h (lo + (hd : Int)) (by omega) (by omega) s]
      exact ih (fun t ht => hb t (List.mem_cons_of_mem hd ht)) _
  exact key _ (fun t ht => List.mem_range.mp ht) init

theorem foldRangeDown_congr {α : Type} {lo hi : Int} {f g : Int → α → α} {init : α}
    (h : ∀ idx, lo ≤ idx → idx ≤ hi → ∀ s, f idx s = g idx s) :
    foldRangeDown lo hi f init = foldRangeDown lo hi g init := by
  unfold foldRangeDown
  have key : ∀ (l : List Nat), (∀ t ∈ l, t < (hi + 1 - lo).toNat) → ∀ s,
      l.foldl (fun (s : α) (t : Nat) => f (hi - (t : Int)) s) s
        = l.foldl (fun (s : α) (t : Nat) => g (hi - (t : Int)) s) s := by
    intro l
    induction l with
    | nil => intro _ s; rfl
    | cons hd tl ih =>
      intro hb s
      have hhd := hb hd (List.mem_cons_self hd tl)
      simp only [List.foldl_cons]
      rw [h (hi - (hd : Int)) (by omega) (by omega) s]
      exact ih (fun t ht => hb t (List.mem_cons_of_mem hd ht)) _
  exact key _ (fun t ht => List.mem_range.mp ht) init

theorem upd_congr {T : Type} {f g : Int → T} {p : Int} {v w : T} (hf : f = g) (hv : v = w) :
    upd f p v = upd g p w := by rw [hf, hv]

theorem strmmLNU_offdiag {m n : Int} {alpha : R} {lda : Int} {ar ar2 : Int → R}
    {bCol : Int → Int} {br : Int → R}
    (hoff : ∀ i j : Int, 1 ≤ i → i ≤ m → 1 ≤ j → j ≤ m → i ≠ j →
      ar (colMajor lda j + i) = ar2 (colMajor lda j + i)) :
    strmmLNU false m n alpha (colMajor lda) ar bCol br
      = strmmLNU false m n alpha (colMajor lda) ar2 bCol br := by
  unfold strmmLNU
  apply foldRange_congr
  intro j hj1 hj2 s
  dsimp only
  apply foldRange_congr
  intro k hk1 hk2 s2
  dsimp only
  simp only [Bool.false_eq_true, if_false]
  by_cases hz : s2 (bCol j + k) ≠ 0
  · rw [if_pos hz, if_pos hz]
    refine upd_congr ?_ rfl
    apply foldRange_congr
    intro i hi1 hi2 s3
    dsimp only
    rw [hoff i k hi1 (by omega) hk1 hk2 (by omega)]
  · rw [if_neg hz, if_neg hz]

theorem strmmLNL_offdiag {m n : Int} {alpha : R} {lda : Int} {ar ar2 : Int → R}
    {bCol : Int → Int} {br : Int → R}
    (hoff : ∀ i j : Int, 1 ≤ i → i ≤ m → 1 ≤ j → j ≤ m → i ≠ j →
      ar (colMajor lda j + i) = ar2 (colMajor lda j + i)) :
    strmmLNL false m n alpha (colMajor lda) ar bCol br
      = strmmLNL false m n alpha (colMajor lda) ar2 bCol br := by
  unfold strmmLNL
  apply foldRange_congr
  intro j hj1 hj2 s
  dsimp only
  apply foldRangeDown_congr
  intro k hk1 hk2 s2
  dsimp only
  simp only [Bool.false_eq_true, if_false]
  by_cases hz : s2 (bCol j + k) ≠ 0
  · rw [if_pos hz, if_pos hz]
    apply foldRange_congr
    intro i hi1 hi2 s3
    dsimp only
    rw [hoff i k (by omega) hi2 hk1 hk2 (by omega)]
  · rw [if_neg hz, if_neg hz]

omit [DecidableEq R] in
theorem strmmLTU_offdiag {m n : Int} {alpha : R} {lda : Int} {ar ar2 : Int → R}
    {bCol : Int → Int} {br : Int → R}
    (hoff : ∀ i j : Int, 1 ≤ i → i ≤ m → 1 ≤ j → j ≤ m → i ≠ j →
      ar (colMajor lda j + i) = ar2 (colMajor lda j + i)) :
    strmmLTU false m n alpha (colMajor lda) ar bCol br
      = strmmLTU false m n alpha (colMajor lda) ar2 bCol br := by
  unfold strmmLTU
  apply foldRange_congr
  intro j hj1 hj2 s
  dsimp only
  apply foldRangeDown_congr
  intro i hi1 hi2 s2
  dsimp only
  simp only [Bool.false_eq_true, if_false]
  refine upd_congr rfl ?_
  apply congrArg
  apply foldRange_congr
  intro k hk1 hk2 t
  dsimp only
  rw [hoff k i hk1 (by omega) hi1 hi2 (by omega)]

omit [DecidableEq R] in
theorem strmmLTL_offdiag {m n : Int} {alpha : R} {lda : Int} {ar ar2 : Int → R}
    {bCol : Int → Int} {br : Int → R}
    (hoff : ∀ i j : Int, 1 ≤ i → i ≤ m → 1 ≤ j → j ≤ m → i ≠ j →
      ar (colMajor lda j + i) = ar2 (colMajor lda j + i)) :
    strmmLTL false m n alpha (colMajor lda) ar bCol br
      = strmmLTL false m n alpha (colMajor lda) ar2 bCol br := by
  unfold strmmLTL
  apply foldRange_congr
  intro j hj1 hj2 s
  dsimp only
  apply foldRange_congr
  intro i hi1 hi2 s2
  dsimp only
  simp only [Bool.false_eq_true, if_false]
  refine upd_congr rfl ?_
  apply congrArg
  apply foldRange_congr
  intro k hk1 hk2 t
  dsimp only
  rw [hoff k i (by omega) hk2 hi1 hi2 (by omega)]

theorem strmmRNU_offdiag {m n : Int} {alpha : R} {lda : Int} {ar ar2 : Int → R}
    {bCol : Int → Int} {br : Int → R}
    (hoff : ∀ i j : Int, 1 ≤ i → i ≤ n → 1 ≤ j → j ≤ n → i ≠ j →
      ar (colMajor lda j + i) = ar2 (colMajor lda j + i)) :
    strmmRNU false m n alpha (colMajor lda) ar bCol br
      = strmmRNU false m n alpha (colMajor lda) ar2 bCol br := by
  unfold strmmRNU
  apply foldRangeDown_congr
  intro j hj1 hj2 s
  dsimp only
  simp only [Bool.false_eq_true, if_false]
  apply foldRange_congr
  intro k hk1 hk2 s2
  dsimp only
  simp only [hoff k j hk1 (by omega) hj1 hj2 (by omega)]

theorem strmmRNL_offdiag {m n : Int} {alpha : R} {lda : Int} {ar ar2 : Int → R}
    {bCol : Int → Int} {br : Int → R}
    (hoff : ∀ i j : Int, 1 ≤ i → i ≤ n → 1 ≤ j → j ≤ n → i ≠ j →
      ar (colMajor lda j + i) = ar2 (colMajor lda j + i)) :
    strmmRNL false m n alpha (colMajor lda) ar bCol br
      = strmmRNL false m n alpha (colMajor lda) ar2 bCol br := by
  unfold strmmRNL
  apply foldRange_congr
  intro j hj1 hj2 s
  dsimp only
  simp only [Bool.false_eq_true, if_false]
  apply foldRange_congr
  intro k hk1 hk2 s2
  dsimp only
  simp only [hoff k j (by omega) hk2 hj1 hj2 (by omega)]

theorem strmmRTU_offdiag {m n : Int} {alpha : R} {lda : Int} {ar ar2 : Int → R}
    {bCol : Int → Int} {br : Int → R}
    (hoff : ∀ i j : Int, 1 ≤ i → i ≤ n → 1 ≤ j → j ≤ n → i ≠ j →
      ar (colMajor lda j + i) = ar2 (colMajor lda j + i)) :
    strmmRTU false m n alpha (colMajor lda) ar bCol br
      = strmmRTU false m n alpha (colMajor lda) ar2 bCol br := by
  unfold strmmRTU
  apply foldRange_congr
  intro k hk1 hk2 s
  dsimp only
  simp only [Bool.false_eq_true, if_false]
  by_cases hone : alpha ≠ 1
  · rw [if_pos hone, if_pos hone]
    apply congrArg
    apply foldRange_congr
    intro j hj1 hj2 s2
    dsimp only
    simp only [hoff j k hj1 (by omega) hk1 hk2 (by omega)]
  · rw [if_neg hone, if_neg hone]
    apply foldRange_congr
    intro j hj1 hj2 s2
    dsimp only
    simp only [hoff j k hj1 (by omega) hk1 hk2 (by omega)]

theorem strmmRTL_offdiag {m n : Int} {alpha : R} {lda : Int} {ar ar2 : Int → R}
    {bCol : Int → Int} {br : Int → R}
    (hoff : ∀ i j : Int, 1 ≤ i → i ≤ n → 1 ≤ j → j ≤ n → i ≠ j →
      ar (colMajor lda j + i) = ar2 (colMajor lda j + i)) :
    strmmRTL false m n alpha (colMajor lda) ar bCol br
      = strmmRTL false m n alpha (colMajor lda) ar2 bCol br := by
  unfold strmmRTL
  apply foldRangeDown_congr
  intro k hk1 hk2 s
  dsimp only
  simp only [Bool.false_eq_true, if_false]
  by_cases hone : alpha ≠ 1
  · rw [if_pos hone, if_pos hone]
    apply congrArg
    apply foldRange_congr
    intro j hj1 hj2 s2
    dsimp only
    simp only [hoff j k (by omega) hj2 hk1 hk2 (by omega)]
  · rw [if_neg hone, if_neg hone]
    apply foldRange_congr
    intro j hj1 hj2 s2
    dsimp only
    simp only [hoff j k (by omega) hj2 hk1 hk2 (by omega)]

/-- C7: under the unit-diagonal code, strmm never reads the diagonal of
A: for every side, uplo and transA, two calls on column-major A
buffers that agree at every off-diagonal in-range entry (rows and
columns within nrowA, which is m on the left side and n on the right)
produce identical results, both outputs and errors, whatever the
stored diagonal values are. -/
theorem strmm_unit_diag_ignores_diagonal (R : Type) [CommRing R] [DecidableEq R]
    (side uplo transA diag : Char) (m n : Int) (alpha : R) (lda ldb : Int)
    (a a2 b : Matrix R) (nrowA : Int)
    (hrow : nrowA = if lowerChar side = 'l' then m else n)
    (hdi : lowerChar diag = 'u')
    (ha : a.colOfEx = colMajor lda) (ha2 : a2.colOfEx = colMajor lda)
    (hoff : ∀ i j : Int, 1 ≤ i → i ≤ nrowA → 1 ≤ j → j ≤ nrowA → i ≠ j →
      a.r (colMajor lda j + i) = a2.r (colMajor lda j + i)) :
    strmm side uplo transA diag m n alpha a lda b ldb
      = strmm side uplo transA diag m n alpha a2 lda b ldb := by
  simp only [strmm]
  rw [hdi, ha, ha2]
  rw [show decide (('u' : Char) = 'n') = false from rfl]
  by_cases hinfo : strmmInfo side uplo transA diag m n lda ldb ≠ 0
  · rw [if_pos hinfo, if_pos hinfo]
  · rw [if_neg hinfo, if_neg hinfo]
    by_cases hmn : m = 0 ∨ n = 0
    · rw [if_pos hmn, if_pos hmn]
    · rw [if_neg hmn, if_neg hmn]
      by_cases hal : alpha = 0
      · rw [if_pos hal, if_pos hal]
      · rw [if_neg hal, if_neg hal]
        refine congrArg (fun rr => Except.ok ({ b with r := rr } : Matrix R)) ?_
        by_cases hs : lowerChar side = 'l'
        · rw [hs] at hrow
          rw [if_pos rfl] at hrow
          subst hrow
          rw [if_pos hs, if_pos hs]
          by_cases ht : lowerChar transA = 'n'
          · rw [if_pos ht, if_pos ht]
            by_cases hu : lowerChar uplo = 'u'
            · rw [if_pos hu, if_pos hu]
              exact strmmLNU_offdiag hoff
            · rw [if_neg hu, if_neg hu]
              exact strmmLNL_offdiag hoff
          · rw [if_neg ht, if_neg ht]
            by_cases hu : lowerChar uplo = 'u'
            · rw [if_pos hu, if_pos hu]
              exact strmmLTU_offdiag hoff
            · rw [if_neg hu, if_neg hu]
              exact strmmLTL_offdiag hoff
        · rw [if_neg hs] at hrow
          subst hrow
          rw [if_neg hs, if_neg hs]
          by_cases ht : lowerChar transA = 'n'
          · rw [if_pos ht, if_pos ht]
            by_cases hu : lowerChar uplo = 'u'
            · rw [if_pos hu, if_pos hu]
              exact strmmRNU_offdiag hoff
            · rw [if_neg hu, if_neg hu]
              exact strmmRNL_offdiag hoff
          · rw [if_neg ht, if_neg ht]
            by_cases hu : lowerChar uplo = 'u'
            · rw [if_pos hu, if_pos hu]
              exact strmmRTU_offdiag hoff
            · rw [if_neg hu, if_neg hu]
              exact strmmRTL_offdiag hoff

/-- C7 witness: a 2 by 2 left-side upper call with unit diagonal gives
the same result for a diagonal of 3, 7 and a diagonal of 30, 70. -/
theorem strmm_unit_diag_ignores_diagonal_witness :
    strmm 'l' 'u' 'n' 'u' 2 2 (2 : ℤ)
        ⟨fun p => if p = 0 then 3 else if p = 2 then 5 else if p = 3 then 7 else 0,
         fun _ => 0, colMajor 2⟩ 2
        ⟨fun p => if p = 0 then 1 else if p = 1 then 2 else 0, fun _ => 0, colMajor 2⟩ 2
      = strmm 'l' 'u' 'n' 'u' 2 2 (2 : ℤ)
        ⟨fun p => if p = 0 then 30 else if p = 2 then 5 else if p = 3 then 70 else 0,
         fun _ => 0, colMajor 2⟩ 2
        ⟨fun p => if p = 0 then 1 else if p = 1 then 2 else 0, fun _ => 0, colMajor 2⟩ 2 := by
  apply strmm_unit_diag_ignores_diagonal ℤ 'l' 'u' 'n' 'u' 2 2 2 2 2 _ _ _ 2
  · decide
  · decide
  · rfl
  · rfl
  · intro i j h1 h2 h3 h4 h5
    have hi : i = 1 ∨ i = 2 := by omega
    have hj : j = 1 ∨ j = 2 := by omega
    rcases hi with rfl | rfl <;> rcases hj with rfl | rfl <;>
      first
        | exact absurd rfl h5
        | decide

/-- C10: in chbmv the bulk zero-fill over the whole backing arrays sits
under the outer betaIsOne guard and the inner betaIsZero condition; in
a nontrivial ring no beta satisfies both, so the scaling pass equals
the variant with the fill branch removed, and only the strided loop
positions are ever written by the pass. -/
theorem chbmv_fill_branch_dead (R : Type) [CommRing R] [DecidableEq R] [Nontrivial R] :
    ∀ (beta : Complex R) (n ky incy : Int) (y : FortranArr R),
      ¬(isOne beta = true ∧ isZero beta = true)
      ∧ betaScale beta n ky incy y = betaScaleNoFill beta n ky incy y := by
  intro beta n ky incy y
  have hcontra : ¬(isOne beta = true ∧ isZero beta = true) := by
    rintro ⟨h1, h0⟩
    simp only [isOne, decide_eq_true_eq] at h1
    simp only [isZero, decide_eq_true_eq] at h0
    rw [h0.1] at h1
    exact zero_ne_one h1.1
  refine ⟨hcontra, ?_⟩
  unfold betaScale betaScaleNoFill
  by_cases h : isOne beta = true
  · rw [if_pos h, if_pos h, if_neg]
    rintro ⟨h0, _⟩
    exact hcontra ⟨h, h0⟩
  · rw [if_neg h, if_neg h]

/-- C10 witness: the dead-branch equality instantiated at the integers
with beta = 2. -/
theorem chbmv_fill_branch_dead_witness :
    ¬(isOne (⟨2, 0⟩ : Complex ℤ) = true ∧ isZero (⟨2, 0⟩ : Complex ℤ) = true)
    ∧ betaScale (⟨2, 0⟩ : Complex ℤ) 1 1 1 exArr = betaScaleNoFill ⟨2, 0⟩ 1 1 1 exArr :=
  chbmv_fill_branch_dead ℤ ⟨2, 0⟩ 1 1 1 exArr

/-- C1 (code bug evidence): with beta = 2 (not one), alpha = 1, a 1 by 1
band matrix A = [1], x = [1] and prior y = [3], the kernel leaves y at
3 + 1 = 4: the prior y is accumulated into unscaled, whereas a
beta-scaling pass before accumulation would give 2*3 + 1 = 7. -/
theorem chbmv_beta_pass_skipped_eval :
    ((chbmv 'u' 1 0 (⟨1, 0⟩ : Complex ℤ)
        ⟨fun p => if p = 0 then 1 else 0, fun _ => 0, colMajor 1⟩ 1
        ⟨fun p => if p = 1 then 1 else 0, fun _ => 0, 0⟩ 1 ⟨2, 0⟩
        ⟨fun p => if p = 1 then 3 else 0, fun _ => 0, 0⟩ 1).toOption.map
      (fun v => (v.r 1, v.i 1))) = some (4, 0) ∧ ((4 : ℤ), (0 : ℤ)) ≠ (7, 0) := by
  constructor
  · decide
  · decide

/-- C2 (code bug evidence): with alpha = 0 and beta = 2 the kernel
returns y unchanged at 3 instead of the beta-scaled 2*3 = 6. -/
theorem chbmv_alpha_zero_not_beta_scaled_eval :
    ((chbmv 'u' 1 0 (⟨0, 0⟩ : Complex ℤ)
        ⟨fun p => if p = 0 then 1 else 0, fun _ => 0, colMajor 1⟩ 1
        ⟨fun p => if p = 1 then 1 else 0, fun _ => 0, 0⟩ 1 ⟨2, 0⟩
        ⟨fun p => if p = 1 then 3 else 0, fun _ => 0, 0⟩ 1).toOption.map
      (fun v => (v.r 1, v.i 1))) = some (3, 0) ∧ ((3 : ℤ), (0 : ℤ)) ≠ (6, 0) := by
  constructor
  · decide
  · decide

/-- C3 (code bug evidence): with beta = 0, unit strides, alpha = 1,
A = [2], x = [1] and prior y = [5], the kernel produces 5 + 2 = 7: the
prior y is not cleared, whereas alpha*A*x alone is 2. -/
theorem chbmv_beta_zero_residual_eval :
    ((chbmv 'u' 1 0 (⟨1, 0⟩ : Complex ℤ)
        ⟨fun p => if p = 0 then 2 else 0, fun _ => 0, colMajor 1⟩ 1
        ⟨fun p => if p = 1 then 1 else 0, fun _ => 0, 0⟩ 1 ⟨0, 0⟩
        ⟨fun p => if p = 1 then 5 else 0, fun _ => 0, 0⟩ 1).toOption.map
      (fun v => (v.r 1, v.i 1))) = some (7, 0) ∧ ((7 : ℤ), (0 : ℤ)) ≠ (2, 0) := by
  constructor
  · decide
  · decide

/-- C6: the call strmm with side left, upper, no transpose, non-unit
diagonal, m = 2, n = 1, alpha = 2, A upper triangular with entries 3,
5, 7 stored column-major at lda = 2, and B = [1; 1] at ldb = 2 leaves
B = [16; 14]. -/
theorem strmm_concrete_left_upper :
    ((strmm 'l' 'u' 'n' 'n' 2 1 (2 : ℤ)
        ⟨fun p => if p = 0 then 3 else if p = 2 then 5 else if p = 3 then 7 else 0,
         fun _ => 0, colMajor 2⟩ 2
        ⟨fun p => if p = 0 then 1 else if p = 1 then 1 else 0, fun _ => 0, colMajor 2⟩
        2).toOption.map (fun mb => (mb.r 0, mb.r 1))) = some (16, 14) := by
  decide

/-- C9: strmm accepts the transpose code c (a concrete otherwise-valid
call with it returns ok rather than an invalid-argument error), and
every call with transA = c is identical, output and error behaviour
alike, to the same call with transA = t. -/
theorem strmm_transA_c_matches_t (R : Type) [CommRing R] [DecidableEq R] :
    (∀ (side uplo diag : Char) (m n : Int) (alpha : R) (a : Matrix R) (lda : Int)
        (b : Matrix R) (ldb : Int),
      strmm side uplo 'c' diag m n alpha a lda b ldb
        = strmm side uplo 't' diag m n alpha a lda b ldb)
    ∧ (∀ (a b : Matrix R), strmm 'l' 'u' 'c' 'n' 0 0 1 a 1 b 1 = .ok b) :=
  ⟨fun _ _ _ _ _ _ _ _ _ _ => rfl, fun _ _ => rfl⟩

/-- C5: chbmv validates eagerly in the fixed order uplo code (position
1), n negative (2), k negative (3), lda below k+1 (6), incx zero (8),
incy zero (11); the first failing check wins, and on any failure the
call returns the invalid-argument error without producing an updated
y. -/
theorem chbmv_validation_order (R : Type) [CommRing R] [DecidableEq R]
    (uplo : Char) (n k : Int) (alpha : Complex R) (a : Matrix R) (lda : Int)
    (x : FortranArr R) (incx : Int) (beta : Complex R) (y : FortranArr R) (incy : Int) :
    (¬(lowerChar uplo = 'u') ∧ ¬(lowerChar uplo = 'l') →
      chbmvInfo uplo n k lda incx incy = 1)
    ∧ ((lowerChar uplo = 'u' ∨ lowerChar uplo = 'l') → n < 0 →
      chbmvInfo uplo n k lda incx incy = 2)
    ∧ ((lowerChar uplo = 'u' ∨ lowerChar uplo = 'l') → 0 ≤ n → k < 0 →
      chbmvInfo uplo n k lda incx incy = 3)
    ∧ ((lowerChar uplo = 'u' ∨ lowerChar uplo = 'l') → 0 ≤ n → 0 ≤ k → lda < k + 1 →
      chbmvInfo uplo n k lda incx incy = 6)
    ∧ ((lowerChar uplo = 'u' ∨ lowerChar uplo = 'l') → 0 ≤ n → 0 ≤ k → k + 1 ≤ lda →
      incx = 0 → chbmvInfo uplo n k lda incx incy = 8)
    ∧ ((lowerChar uplo = 'u' ∨ lowerChar uplo = 'l') → 0 ≤ n → 0 ≤ k → k + 1 ≤ lda →
      incx ≠ 0 → incy = 0 → chbmvInfo uplo n k lda incx incy = 11)
    ∧ ((lowerChar uplo = 'u' ∨ lowerChar uplo = 'l') → 0 ≤ n → 0 ≤ k → k + 1 ≤ lda →
      incx ≠ 0 → incy ≠ 0 → chbmvInfo uplo n k lda incx incy = 0)
    ∧ (chbmvInfo uplo n k lda incx incy ≠ 0 →
      chbmv uplo n k alpha a lda x incx beta y incy
        = .error (.wrongArg "chbmv" (chbmvInfo uplo n k lda incx incy))) := by
  refine ⟨?_, ?_, ?_, ?_, ?_, ?_, ?_, ?_⟩
  · intro h
    simp only [chbmvInfo]
    rw [if_pos h]
  · intro h hn
    simp only [chbmvInfo]
    rw [if_neg (fun hc => h.elim hc.1 hc.2), if_pos hn]
  · intro h hn hk
    simp only [chbmvInfo]
    rw [if_neg (fun hc => h.elim hc.1 hc.2), if_neg (by omega), if_pos hk]
  · intro h hn hk hl
    simp only [chbmvInfo]
    rw [if_neg (fun hc => h.elim hc.1 hc.2), if_neg (by omega), if_neg (by omega), if_pos hl]
  · intro h hn hk hl hx
    simp only [chbmvInfo]
    rw [if_neg (fun hc => h.elim hc.1 hc.2), if_neg (by omega), if_neg (by omega),
      if_neg (by omega), if_pos hx]
  · intro h hn hk hl hx hy
    simp only [chbmvInfo]
    rw [if_neg (fun hc => h.elim hc.1 hc.2), if_neg (by omega), if_neg (by omega),
      if_neg (by omega), if_neg hx, if_pos hy]
  · intro h hn hk hl hx hy
    simp only [chbmvInfo]
    rw [if_neg (fun hc => h.elim hc.1 hc.2), if_neg (by omega), if_neg (by omega),
      if_neg (by omega), if_neg hx, if_neg hy]
  · intro h
    simp only [chbmv]
    rw [if_pos h]

/-- C5 witness: an n = -1 call is rejected at position 2, and an
unrecognized uplo code is rejected at position 1 with no y produced. -/
theorem chbmv_validation_order_witness :
    chbmvInfo 'u' (-1) 0 1 1 1 = 2
    ∧ chbmv 'x' 1 0 (⟨0, 0⟩ : Complex ℤ) exMat 1 exArr 1 ⟨1, 0⟩ exArr 1
        = .error (.wrongArg "chbmv" 1) := by
  constructor
  · exact (chbmv_validation_order ℤ 'u' (-1) 0 ⟨0, 0⟩ exMat 1 exArr 1 ⟨1, 0⟩ exArr 1).2.1
      (Or.inl (by decide)) (by decide)
  · have h := (chbmv_validation_order ℤ 'x' 1 0 ⟨0, 0⟩ exMat 1 exArr 1 ⟨1, 0⟩
      exArr 1).2.2.2.2.2.2.2 (by decide)
    rw [h]
    have h1 : chbmvInfo 'x' 1 0 1 1 1 = 1 := by decide
    rw [h1]

/-- C4: strmm validates eagerly in the fixed order side code (position
1), uplo code (2), transA code (3), diag code (4), m negative (5), n
negative (6), lda below max 1 nrowA with nrowA = m on the left side
and n otherwise (9), ldb below max 1 m (11); the first violation wins,
a failing call returns the invalid-argument error without producing an
updated B, and an unrecognized side code is rejected at position 1
whatever the remaining arguments are. -/
theorem strmm_validation_order (R : Type) [CommRing R] [DecidableEq R]
    (side uplo transA diag : Char) (m n : Int) (alpha : R) (a : Matrix R) (lda : Int)
    (b : Matrix R) (ldb : Int) :
    (¬(lowerChar side = 'l' ∨ lowerChar side = 'r') →
      strmmInfo side uplo transA diag m n lda ldb = 1)
    ∧ ((lowerChar side = 'l' ∨ lowerChar side = 'r') →
      ¬(lowerChar uplo = 'u' ∨ lowerChar uplo = 'l') →
      strmmInfo side uplo transA diag m n lda ldb = 2)
    ∧ ((lowerChar side = 'l' ∨ lowerChar side = 'r') →
      (lowerChar uplo = 'u' ∨ lowerChar uplo = 'l') →
      ¬(lowerChar transA = 'n' ∨ lowerChar transA = 't' ∨ lowerChar transA = 'c') →
      strmmInfo side uplo transA diag m n lda ldb = 3)
    ∧ ((lowerChar side = 'l' ∨ lowerChar side = 'r') →
      (lowerChar uplo = 'u' ∨ lowerChar uplo = 'l') →
      (lowerChar transA = 'n' ∨ lowerChar transA = 't' ∨ lowerChar transA = 'c') →
      ¬(lowerChar diag = 'u' ∨ lowerChar diag = 'n') →
      strmmInfo side uplo transA diag m n lda ldb = 4)
    ∧ ((lowerChar side = 'l' ∨ lowerChar side = 'r') →
      (lowerChar uplo = 'u' ∨ lowerChar uplo = 'l') →
      (lowerChar transA = 'n' ∨ lowerChar transA = 't' ∨ lowerChar transA = 'c') →
      (lowerChar diag = 'u' ∨ lowerChar diag = 'n') →
      m < 0 → strmmInfo side uplo transA diag m n lda ldb = 5)
    ∧ ((lowerChar side = 'l' ∨ lowerChar side = 'r') →
      (lowerChar uplo = 'u' ∨ lowerChar uplo = 'l') →
      (lowerChar transA = 'n' ∨ lowerChar transA = 't' ∨ lowerChar transA = 'c') →
      (lowerChar diag = 'u' ∨ lowerChar diag = 'n') →
      0 ≤ m → n < 0 → strmmInfo side uplo transA diag m n lda ldb = 6)
    ∧ ((lowerChar side = 'l' ∨ lowerChar side = 'r') →
      (lowerChar uplo = 'u' ∨ lowerChar uplo = 'l') →
      (lowerChar transA = 'n' ∨ lowerChar transA = 't' ∨ lowerChar transA = 'c') →
      (lowerChar diag = 'u' ∨ lowerChar diag = 'n') →
      0 ≤ m → 0 ≤ n → lda < max 1 (if lowerChar side = 'l' then m else n) →
      strmmInfo side uplo transA diag m n lda ldb = 9)
    ∧ ((lowerChar side = 'l' ∨ lowerChar side = 'r') →
      (lowerChar uplo = 'u' ∨ lowerChar uplo = 'l') →
      (lowerChar transA = 'n' ∨ lowerChar transA = 't' ∨ lowerChar transA = 'c') →
      (lowerChar diag = 'u' ∨ lowerChar diag = 'n') →
      0 ≤ m → 0 ≤ n → max 1 (if lowerChar side = 'l' then m else n) ≤ lda →
      ldb < max 1 m → strmmInfo side uplo transA diag m n lda ldb = 11)
    ∧ ((lowerChar side = 'l' ∨ lowerChar side = 'r') →
      (lowerChar uplo = 'u' ∨ lowerChar uplo = 'l') →
      (lowerChar transA = 'n' ∨ lowerChar transA = 't' ∨ lowerChar transA = 'c') →
      (lowerChar diag = 'u' ∨ lowerChar diag = 'n') →
      0 ≤ m → 0 ≤ n → max 1 (if lowerChar side = 'l' then m else n) ≤ lda →
      max 1 m ≤ ldb → strmmInfo side uplo transA diag m n lda ldb = 0)
    ∧ (strmmInfo side uplo transA diag m n lda ldb ≠ 0 →
      strmm side uplo transA diag m n alpha a lda b ldb
        = .error (.wrongArg "strmm" (strmmInfo side uplo transA diag m n lda ldb)))
    ∧ (∀ (uplo2 transA2 diag2 : Char) (m2 n2 : Int) (alpha2 : R) (a2 : Matrix R)
        (lda2 : Int) (b2 : Matrix R) (ldb2 : Int),
      ¬(lowerChar side = 'l' ∨ lowerChar side = 'r') →
      strmm side uplo2 transA2 diag2 m2 n2 alpha2 a2 lda2 b2 ldb2
        = .error (.wrongArg "strmm" 1)) := by
  refine ⟨?_, ?_, ?_, ?_, ?_, ?_, ?_, ?_, ?_, ?_, ?_⟩
  · intro h1
    simp only [strmmInfo]
    rw [if_pos h1]
  · intro h1 h2
    simp only [strmmInfo]
    rw [if_neg (not_not_intro h1), if_pos h2]
  · intro h1 h2 h3
    simp only [strmmInfo]
    rw [if_neg (not_not_intro h1), if_neg (not_not_intro h2), if_pos h3]
  · intro h1 h2 h3 h4
    simp only [strmmInfo]
    rw [if_neg (not_not_intro h1), if_neg (not_not_intro h2), if_neg (not_not_intro h3),
      if_pos h4]
  · intro h1 h2 h3 h4 h5
    simp only [strmmInfo]
    rw [if_neg (not_not_intro h1), if_neg (not_not_intro h2), if_neg (not_not_intro h3),
      if_neg (not_not_intro h4), if_pos h5]
  · intro h1 h2 h3 h4 h5 h6
    simp only [strmmInfo]
    rw [if_neg (not_not_intro h1), if_neg (not_not_intro h2), if_neg (not_not_intro h3),
      if_neg (not_not_intro h4), if_neg (by omega), if_pos h6]
  · intro h1 h2 h3 h4 h5 h6 h7
    simp only [strmmInfo]
    rw [if_neg (not_not_intro h1), if_neg (not_not_intro h2), if_neg (not_not_intro h3),
      if_neg (not_not_intro h4), if_neg (by omega), if_neg (by omega), if_pos h7]
  · intro h1 h2 h3 h4 h5 h6 h7 h8
    simp only [strmmInfo]
    rw [if_neg (not_not_intro h1), if_neg (not_not_intro h2), if_neg (not_not_intro h3),
      if_neg (not_not_intro h4), if_neg (by omega), if_neg (by omega),
      if_neg (not_lt.mpr h7), if_pos h8]
  · intro h1 h2 h3 h4 h5 h6 h7 h8
    simp only [strmmInfo]
    rw [if_neg (not_not_intro h1), if_neg (not_not_intro h2), if_neg (not_not_intro h3),
      if_neg (not_not_intro h4), if_neg (by omega), if_neg (by omega),
      if_neg (not_lt.mpr h7), if_neg (not_lt.mpr h8)]
  · intro h
    simp only [strmm]
    rw [if_pos h]
  · intro uplo2 transA2 diag2 m2 n2 alpha2 a2 lda2 b2 ldb2 hns
    have hinfo : strmmInfo side uplo2 transA2 diag2 m2 n2 lda2 ldb2 = 1 := by
      simp only [strmmInfo]
      rw [if_pos hns]
    simp only [strmm]
    rw [hinfo, if_pos (by decide : (1 : Int) ≠ 0)]

/-- C4 witness: an m = -1 call is rejected at position 5, and the side
code x is rejected at position 1 regardless of the other arguments. -/
theorem strmm_validation_order_witness :
    strmmInfo 'l' 'u' 'n' 'n' (-1) 1 1 1 = 5
    ∧ strmm 'x' 'u' 'n' 'n' 2 1 (3 : ℤ) exMat 2 exMat 2
        = .error (.wrongArg "strmm" 1) := by
  constructor
  · exact (strmm_validation_order ℤ 'l' 'u' 'n' 'n' (-1) 1 1 exMat 1 exMat
      1).2.2.2.2.1 (Or.inl (by decide)) (Or.inl (by decide)) (Or.inl (by decide))
      (Or.inr (by decide)) (by decide)
  · exact (strmm_validation_order ℤ 'x' 'z' 'z' 'z' 0 0 0 exMat 0 exMat
      0).2.2.2.2.2.2.2.2.2.2 'u' 'n' 'n' 2 1 3 exMat 2 exMat 2 (by decide)

/-- C8: with validation passing, chbmv with n = 0 or with alpha = 0 and
beta = 1 returns the y argument itself, and strmm with m = 0 or n = 0
returns the B argument itself: the output buffer is untouched. -/
theorem chbmv_strmm_quick_return (R : Type) [CommRing R] [DecidableEq R]
    (uplo : Char) (n k : Int) (alpha : Complex R) (a : Matrix R) (lda : Int)
    (x : FortranArr R) (incx : Int) (beta : Complex R) (y : FortranArr R) (incy : Int)
    (side uplo2 transA2 diag2 : Char) (m2 n2 : Int) (alpha2 : R) (a2 : Matrix R)
    (lda2 : Int) (b2 : Matrix R) (ldb2 : Int) :
    ((n = 0 ∨ (isZero alpha ∧ isOne beta)) → chbmvInfo uplo n k lda incx incy = 0 →
      chbmv uplo n k alpha a lda x incx beta y incy = .ok y)
    ∧ ((m2 = 0 ∨ n2 = 0) → strmmInfo side uplo2 transA2 diag2 m2 n2 lda2 ldb2 = 0 →
      strmm side uplo2 transA2 diag2 m2 n2 alpha2 a2 lda2 b2 ldb2 = .ok b2) := by
  constructor
  · intro hc hinfo
    simp only [chbmv]
    rw [if_neg (fun hne => hne hinfo), if_pos hc]
  · intro hc hinfo
    simp only [strmm]
    rw [if_neg (fun hne => hne hinfo), if_pos hc]

/-- C8 witness: a chbmv call with n = 0 and a strmm call with m = 0
both hand back their output buffer argument unchanged. -/
theorem chbmv_strmm_quick_return_witness :
    chbmv 'u' 0 0 (⟨0, 0⟩ : Complex ℤ) exMat 1 exArr 1 ⟨2, 0⟩ exArr 1 = .ok exArr
    ∧ strmm 'l' 'u' 'n' 'n' 0 3 (1 : ℤ) exMat 1 exMat 1 = .ok exMat := by
  constructor
  · exact (chbmv_strmm_quick_return ℤ 'u' 0 0 ⟨0, 0⟩ exMat 1 exArr 1 ⟨2, 0⟩ exArr 1
      'l' 'u' 'n' 'n' 0 3 1 exMat 1 exMat 1).1 (Or.inl rfl) (by decide)
  · exact (chbmv_strmm_quick_return ℤ 'u' 0 0 ⟨0, 0⟩ exMat 1 exArr 1 ⟨2, 0⟩ exArr 1
      'l' 'u' 'n' 'n' 0 3 1 exMat 1 exMat 1).2 (Or.inl rfl) (by decide)

end Blas
